import Mathlib

/-!
# Verification of the `voidconf` configuration library

Shallow embedding of `src/lib.rs` and `src/err.rs` of the `voidconf`
repository: a typed configuration-retrieval library that registers
`ConfEntry` declarations in a `Conf` registry bound to a `ConfSource`
(canonically `EnvSource`, reading prefixed environment variables) and
resolves typed values via source-then-default fallback plus parsing.

Modelling conventions:
* The process environment (`std::env::var`) is an explicit argument of
  type `Env := String → Except VarError String`, mirroring the Rust
  signature `fn var(key) -> Result<String, VarError>`.
* Rust `Result<T, ConfError>` becomes `Except ConfError T`; `Option`
  stays `Option`.
* The closed set of `ConfValue` impls in this repository is the tag type
  `VType`, with `VType.carrier` as the Lean carrier of each Rust type:
  unsigned integers become `Nat` (ranges enforced by parsing, exactly as
  Rust's `from_str` enforces them), signed integers become `Int`.
  `serde_json::Value` is not embedded: its numbers are IEEE-754 doubles,
  which this embedding does not model.
* `Any::downcast_ref::<ConfEntry<V>>` succeeds exactly when the stored
  entry's type parameter equals `V` (Rust's `TypeId` guarantee); the
  erased entry carries its tag in `valType` (the `PhantomData` marker)
  and the downcast is the tag-equality test.
* Rust's `{integer}::from_str` is modelled faithfully: optional leading
  sign (`+` for unsigned, `+`/`-` for signed), at least one ASCII decimal
  digit, nothing else, with the range check of the target width.
  `String::from_str` is infallible. `Display` for integers is canonical
  decimal rendering.
* `BTreeMap<String, _>` is modelled as an association list with
  map-semantics `mapInsert` (replace if present) and `mapGet`; the claims
  only use lookup/insert, never iteration order.
-/

namespace Voidconf

/-! ## Decimal digits, integer parsing and rendering (Rust `from_str` / `Display`) -/

/-- `char::to_digit(10)` restricted to ASCII decimal digits, as used by
Rust's integer `from_str`: the value is the code point minus that of
`0` when the character lies between `0` and `9`. -/
def charToDigit (c : Char) : Option Nat :=
  if 48 ≤ c.toNat ∧ c.toNat ≤ 57 then some (c.toNat - 48) else none

/-- The ASCII digit character for `d < 10` (integer `Display` emits the
code point of `0` plus the digit). -/
def digitToChar (d : Nat) : Char :=
  Char.ofNat (48 + d)

/-- Accumulate decimal digits left to right; `none` on a non-digit.
This is the digit loop of Rust's `from_str_radix` with the overflow
check deferred to a final range test (equivalent, since the accumulator
is monotone). -/
def parseDigitsAux : List Char → Nat → Option Nat
  | [], acc => some acc
  | c :: cs, acc =>
    match charToDigit c with
    | some d => parseDigitsAux cs (acc * 10 + d)
    | none => none

/-- Parse a non-empty all-digit string to its value; `none` otherwise. -/
def parseDigits (l : List Char) : Option Nat :=
  match l with
  | [] => none
  | _ => parseDigitsAux l 0

/-- Strip the optional leading sign and parse the digits, returning
`(isNegative, magnitude)`; mirrors the sign handling of Rust's integer
`from_str`. -/
def parseSignDigits (l : List Char) : Option (Bool × Nat) :=
  match l with
  | [] => none
  | c :: cs =>
    if c = '+' then (parseDigits cs).map (fun n => (false, n))
    else if c = '-' then (parseDigits cs).map (fun n => (true, n))
    else (parseDigits (c :: cs)).map (fun n => (false, n))

/-- Rust `uN::from_str`: optional `+`, digits, value ≤ `max`; a `-` sign
is rejected for unsigned types. -/
def parseUnsigned (max : Nat) (s : String) : Option Nat :=
  match parseSignDigits s.data with
  | some (false, n) => if n ≤ max then some n else none
  | some (true, _) => none
  | none => none

/-- Rust `iN::from_str` with `bound = 2^(N-1)`: optional sign, digits,
result in `[-bound, bound - 1]`. -/
def parseSigned (bound : Nat) (s : String) : Option Int :=
  match parseSignDigits s.data with
  | some (false, n) => if n ≤ bound - 1 then some (n : Int) else none
  | some (true, n) => if n ≤ bound then some (-(n : Int)) else none
  | none => none

/-- Digit characters of `n` in order, computed with structural fuel
(`fuel > n` suffices) so that the definition reduces in the kernel. -/
def natDigitsAux : Nat → Nat → List Char
  | 0, _ => []
  | fuel + 1, n =>
    if n < 10 then [digitToChar n]
    else natDigitsAux fuel (n / 10) ++ [digitToChar (n % 10)]

/-- Decimal digit characters of `n`, most significant first. -/
def natDigits (n : Nat) : List Char :=
  natDigitsAux (n + 1) n

/-- Canonical decimal rendering of a natural number (Rust `Display` for
unsigned integers). -/
def renderNat (n : Nat) : String :=
  String.mk (natDigits n)

/-- Canonical decimal rendering of an integer (Rust `Display` for signed
integers): a `-` sign for negatives, no sign otherwise. -/
def renderInt (i : Int) : String :=
  if i < 0 then String.mk ('-' :: natDigits i.natAbs) else renderNat i.natAbs

/-- Rust `char::to_ascii_uppercase`, lifted to strings
(`str::to_ascii_uppercase`): maps `a`-`z` to `A`-`Z` and leaves every
other character unchanged, which is exactly Lean's ASCII `Char.toUpper`. -/
def asciiUpper (s : String) : String :=
  String.mk (s.data.map Char.toUpper)

/-! ## Errors (`src/err.rs`) -/

/-- `std::env::VarError`. -/
inductive VarError where
  | notPresent
  | notUnicode
  deriving DecidableEq

/-- The process environment, as consulted by `std::env::var`. -/
abbrev Env := String → Except VarError String

/-- `ConfError` from `src/err.rs`: the four failure kinds. -/
inductive ConfError where
  | KeyNotFound (key : String)
  | ValNotFound (key : String)
  | ValParseFailed (key : String) (val : String)
  | EnvLookupFailed (key : String) (source : VarError)
  deriving DecidableEq

/-! ## Value types: the closed set of `ConfValue` impls in this repository -/

/-- Tag for the `ConfValue` implementations of `lib.rs` (the `TypeId` of
the Rust value type). `serde_json::Value` is omitted: its numbers are
IEEE-754 doubles, outside this embedding. -/
inductive VType where
  | vString
  | vU8
  | vU16
  | vU32
  | vU64
  | vI8
  | vI16
  | vI32
  | vI64
  deriving DecidableEq

/-- The Lean carrier of each Rust value type. -/
@[reducible] def VType.carrier : VType → Type
  | .vString => String
  | .vU8 | .vU16 | .vU32 | .vU64 => Nat
  | .vI8 | .vI16 | .vI32 | .vI64 => Int

/-- `FromStr::from_str` of each value type (`String`'s is infallible;
the integer types check their width's range). -/
def VType.parse : (vt : VType) → String → Option vt.carrier
  | .vString, s => some s
  | .vU8, s => parseUnsigned 255 s
  | .vU16, s => parseUnsigned 65535 s
  | .vU32, s => parseUnsigned 4294967295 s
  | .vU64, s => parseUnsigned 18446744073709551615 s
  | .vI8, s => parseSigned 128 s
  | .vI16, s => parseSigned 32768 s
  | .vI32, s => parseSigned 2147483648 s
  | .vI64, s => parseSigned 9223372036854775808 s

/-- `Display`/`to_string` of each value type. -/
def VType.render : (vt : VType) → vt.carrier → String
  | .vString, s => s
  | .vU8, n | .vU16, n | .vU32, n | .vU64, n => renderNat n
  | .vI8, i | .vI16, i | .vI32, i | .vI64, i => renderInt i

/-! ## `EnvSource` -/

/-- Name used by `Conf::default`. -/
def DEFAULT_NAME : String := "vcfg"

/-- `EnvSource`: a `ConfSource` resolving prefixed environment
variables. The field `pfx` is the Rust field `prefix` (renamed because
`prefix` is a Lean keyword): the `Conf` name in uppercase. -/
structure EnvSource where
  pfx : String
  deriving DecidableEq

/-- `EnvSource::env_key`: prepend the prefix and uppercase the key. -/
def EnvSource.env_key (src : EnvSource) (key : String) : String :=
  src.pfx ++ "_" ++ asciiUpper key

/-- `<EnvSource as ConfSource>::new`: store the uppercased name. -/
def EnvSource.mkNew (name : String) : EnvSource :=
  { pfx := asciiUpper name }

/-- `<EnvSource as ConfSource>::get`: query `std::env::var` at the
translated key. The `v.parse::<String>()` step of the Rust code is kept
(it is `String::from_str`, i.e. `VType.parse .vString`), including its
error branch, even though that parse is infallible. -/
def EnvSource.envGet (src : EnvSource) (env : Env) (key : String) :
    Except ConfError (Option String) :=
  let envKey := src.env_key key
  match env envKey with
  | .ok v =>
    match VType.parse .vString v with
    | some s => .ok (some s)
    | none => .error (.ValParseFailed envKey v)
  | .error .notPresent => .ok none
  | .error e => .error (.EnvLookupFailed envKey e)

/-! ## `ConfEntry` and the type-erased option map -/

/-- `ConfEntry<V>` together with its erased form `Box<dyn AnyConfEntry>`:
`valType` is the `PhantomData<V>` marker, recovered by the checked
downcast in `Conf::get`. -/
structure ConfEntry where
  name : String
  valType : VType
  default : Option String
  deriving DecidableEq

/-- `ConfEntry::new`: no default. -/
def ConfEntry.mkNew (vt : VType) (name : String) : ConfEntry :=
  { name := name, valType := vt, default := none }

/-- `ConfEntry::with_default`: consuming update storing the default
string verbatim. -/
def ConfEntry.with_default (e : ConfEntry) (default : String) : ConfEntry :=
  { e with default := some default }

/-- Lookup in the option map (`BTreeMap::get`). -/
def mapGet (key : String) : List (String × ConfEntry) → Option ConfEntry
  | [] => none
  | (k, v) :: rest => if k = key then some v else mapGet key rest

/-- Insert into the option map (`BTreeMap::insert`): replace the entry
under an existing key, otherwise add the key. -/
def mapInsert (key : String) (v : ConfEntry) :
    List (String × ConfEntry) → List (String × ConfEntry)
  | [] => [(key, v)]
  | (k, w) :: rest =>
    if k = key then (key, v) :: rest else (k, w) :: mapInsert key v rest

/-! ## `ConfSource` and `Conf` -/

/-- The `ConfSource` trait: construct from a name, look up a serialized
value by key. The environment is threaded explicitly (the only effect
the Rust trait methods perform). -/
class ConfSource (S : Type) where
  mkNew : String → S
  srcGet : S → Env → String → Except ConfError (Option String)

instance : ConfSource EnvSource where
  mkNew := EnvSource.mkNew
  srcGet := EnvSource.envGet

/-- The `Conf<S>` registry: a name, one source, and the map of
type-erased entries. -/
structure Conf (S : Type) where
  name : String
  source : S
  options : List (String × ConfEntry)

/-- `Conf::new`: initialize the source from the name, empty options. -/
def Conf.mkNew (S : Type) [ConfSource S] (name : String) : Conf S :=
  { name := name, source := ConfSource.mkNew name, options := [] }

/-- `Conf::default`: `Conf::<EnvSource>::new(DEFAULT_NAME)`. -/
def Conf.mkDefault : Conf EnvSource :=
  Conf.mkNew EnvSource DEFAULT_NAME

/-- `Conf::entry`: consuming insert keyed by the entry's name. -/
def Conf.entry {S : Type} (c : Conf S) (e : ConfEntry) : Conf S :=
  { c with options := mapInsert e.name e c.options }

/-- `Conf::string`. -/
def Conf.string {S : Type} (c : Conf S) (name : String)
    (default : Option String) : Conf S :=
  match default with
  | some d => c.entry ((ConfEntry.mkNew .vString name).with_default d)
  | none => c.entry (ConfEntry.mkNew .vString name)

/-- `Conf::byte` (`u8` entry; the default is rendered with `to_string`). -/
def Conf.byte {S : Type} (c : Conf S) (name : String)
    (default : Option Nat) : Conf S :=
  match default with
  | some d => c.entry ((ConfEntry.mkNew .vU8 name).with_default (renderNat d))
  | none => c.entry (ConfEntry.mkNew .vU8 name)

/-- `Conf::int` (`i64` entry). -/
def Conf.int {S : Type} (c : Conf S) (name : String)
    (default : Option Int) : Conf S :=
  match default with
  | some d => c.entry ((ConfEntry.mkNew .vI64 name).with_default (renderInt d))
  | none => c.entry (ConfEntry.mkNew .vI64 name)

/-- `Conf::uint` (`u64` entry). -/
def Conf.uint {S : Type} (c : Conf S) (name : String)
    (default : Option Nat) : Conf S :=
  match default with
  | some d => c.entry ((ConfEntry.mkNew .vU64 name).with_default (renderNat d))
  | none => c.entry (ConfEntry.mkNew .vU64 name)

/-- Steps 3-6 of `Conf::get` (everything after a successful downcast):
query the source with the entry's name, propagate source errors, fall
back to the default on source absence, parse the resolved string. -/
def Conf.resolveEntry {S : Type} [ConfSource S] (c : Conf S) (env : Env)
    (vt : VType) (key : String) (opt : ConfEntry) :
    Except ConfError (Option vt.carrier) :=
  match ConfSource.srcGet c.source env opt.name with
  | .error e => .error e
  | .ok sv =>
    match sv.orElse (fun _ => opt.default) with
    | some v =>
      match vt.parse v with
      | some x => .ok (some x)
      | none => .error (.ValParseFailed key v)
    | none => .ok none

/-- `Conf::get`: option-map lookup, checked downcast (tag equality),
then `resolveEntry`. -/
def Conf.get {S : Type} [ConfSource S] (c : Conf S) (env : Env)
    (vt : VType) (key : String) : Except ConfError (Option vt.carrier) :=
  match mapGet key c.options with
  | some opt =>
    if opt.valType = vt then c.resolveEntry env vt key opt
    else .error (.ValParseFailed key "")
  | none => .error (.KeyNotFound key)

/-- `Conf::get_string`. -/
def Conf.get_string {S : Type} [ConfSource S] (c : Conf S) (env : Env)
    (key : String) : Except ConfError (Option String) :=
  c.get env .vString key

/-- `Conf::get_byte`. -/
def Conf.get_byte {S : Type} [ConfSource S] (c : Conf S) (env : Env)
    (key : String) : Except ConfError (Option Nat) :=
  c.get env .vU8 key

/-- `Conf::get_int`. -/
def Conf.get_int {S : Type} [ConfSource S] (c : Conf S) (env : Env)
    (key : String) : Except ConfError (Option Int) :=
  c.get env .vI64 key

/-- `Conf::get_uint`. -/
def Conf.get_uint {S : Type} [ConfSource S] (c : Conf S) (env : Env)
    (key : String) : Except ConfError (Option Nat) :=
  c.get env .vU64 key

/-- `Result::transpose` on `Result<Option<V>, E>`. -/
def exceptTranspose {ε α : Type} : Except ε (Option α) → Option (Except ε α)
  | .ok none => none
  | .ok (some v) => some (.ok v)
  | .error e => some (.error e)

/-- `Conf::require`: `self.get(key).transpose().ok_or_else(val_not_found)?`. -/
def Conf.require {S : Type} [ConfSource S] (c : Conf S) (env : Env)
    (vt : VType) (key : String) : Except ConfError vt.carrier :=
  match exceptTranspose (c.get env vt key) with
  | some r => r
  | none => .error (.ValNotFound key)

/-- `Conf::require_string`. -/
def Conf.require_string {S : Type} [ConfSource S] (c : Conf S) (env : Env)
    (key : String) : Except ConfError String :=
  c.require env .vString key

/-- `Conf::require_byte`. -/
def Conf.require_byte {S : Type} [ConfSource S] (c : Conf S) (env : Env)
    (key : String) : Except ConfError Nat :=
  c.require env .vU8 key

/-- `Conf::require_int`. -/
def Conf.require_int {S : Type} [ConfSource S] (c : Conf S) (env : Env)
    (key : String) : Except ConfError Int :=
  c.require env .vI64 key

/-- `Conf::require_uint`. -/
def Conf.require_uint {S : Type} [ConfSource S] (c : Conf S) (env : Env)
    (key : String) : Except ConfError Nat :=
  c.require env .vU64 key

/-- The parse step (steps 5-6 of `Conf::get`) applied to a resolved raw
string: parse it as `vt`, reporting failure as `ValParseFailed` with the
raw string. Used to state resolution lemmas. -/
def parseStep (vt : VType) (key v : String) : Except ConfError (Option vt.carrier) :=
  match vt.parse v with
  | some x => .ok (some x)
  | none => .error (.ValParseFailed key v)

/-- The value range of each Rust integer type (the carrier of the
embedding is `Nat`/`Int`, so the width constraint is explicit). -/
def VType.inRange : (vt : VType) → vt.carrier → Prop
  | .vString, _ => True
  | .vU8, n => n ≤ 255
  | .vU16, n => n ≤ 65535
  | .vU32, n => n ≤ 4294967295
  | .vU64, n => n ≤ 18446744073709551615
  | .vI8, i => -128 ≤ i ∧ i ≤ 127
  | .vI16, i => -32768 ≤ i ∧ i ≤ 32767
  | .vI32, i => -2147483648 ≤ i ∧ i ≤ 2147483647
  | .vI64, i => -9223372036854775808 ≤ i ∧ i ≤ 9223372036854775807

/-! ## Concrete fixtures (environments and registries used in witnesses) -/

/-- An environment with no variables set. -/
def envEmpty : Env := fun _ => .error .notPresent

/-- An environment with only `VCFG_NAME=xela`. -/
def envName : Env :=
  fun k => if k = "VCFG_NAME" then .ok "xela" else .error .notPresent

/-- Agrees with `envName` on `VCFG_NAME` but differs everywhere else. -/
def envNameOnlyAgree : Env :=
  fun k => if k = "VCFG_NAME" then .ok "xela" else .error .notUnicode

/-- An environment where only `VCFG_COUNT` is set, to the empty string. -/
def envCountEmpty : Env :=
  fun k => if k = "VCFG_COUNT" then .ok "" else .error .notPresent

/-- `Conf::default().string("name", Some("world"))`. -/
def confName : Conf EnvSource := Conf.mkDefault.string "name" (some "world")

/-- `Conf::default().byte("count", None)`. -/
def confCount : Conf EnvSource := Conf.mkDefault.byte "count" none

/-- A registry whose `u8` entry `"count"` carries the unparsable default
string `"1e3"`. -/
def confBadDefault : Conf EnvSource :=
  Conf.mkDefault.entry ((ConfEntry.mkNew .vU8 "count").with_default "1e3")

/-! ## Helper lemmas -/

theorem srcGet_envSource (src : EnvSource) (env : Env) (key : String) :
    ConfSource.srcGet src env key = src.envGet env key := rfl

theorem envGet_eq (src : EnvSource) (env : Env) (key : String) :
    src.envGet env key =
      match env (src.env_key key) with
      | .ok v => .ok (some v)
      | .error .notPresent => .ok none
      | .error .notUnicode =>
          .error (.EnvLookupFailed (src.env_key key) .notUnicode) := by
  unfold EnvSource.envGet
  cases h : env (src.env_key key) with
  | ok v => simp [h, VType.parse]
  | error e => cases e <;> simp [h]

theorem mapGet_mapInsert_self (key : String) (v : ConfEntry)
    (m : List (String × ConfEntry)) : mapGet key (mapInsert key v m) = some v := by
  induction m with
  | nil => simp [mapInsert, mapGet]
  | cons hd tl ih =>
    obtain ⟨k, w⟩ := hd
    by_cases h : k = key <;> simp [mapInsert, mapGet, h, ih]

theorem mapGet_mapInsert_ne (k key : String) (v : ConfEntry)
    (m : List (String × ConfEntry)) (h : k ≠ key) :
    mapGet k (mapInsert key v m) = mapGet k m := by
  have hne : ¬key = k := fun hh => h hh.symm
  induction m with
  | nil => simp [mapInsert, mapGet, hne]
  | cons hd tl ih =>
    obtain ⟨k', w⟩ := hd
    by_cases h' : k' = key
    · subst h'
      simp [mapInsert, mapGet, hne]
    · simp [mapInsert, mapGet, h', ih]

theorem keys_mapInsert_mapInsert (key : String) (v w : ConfEntry)
    (m : List (String × ConfEntry)) :
    (mapInsert key v (mapInsert key w m)).map Prod.fst =
      (mapInsert key w m).map Prod.fst := by
  induction m with
  | nil => simp [mapInsert]
  | cons hd tl ih =>
    obtain ⟨k, u⟩ := hd
    by_cases h : k = key <;> simp [mapInsert, h, ih]

theorem resolveEntry_envSource (c : Conf EnvSource) (env : Env) (vt : VType)
    (key : String) (opt : ConfEntry) :
    c.resolveEntry env vt key opt =
      match env (c.source.env_key opt.name) with
      | .ok v => parseStep vt key v
      | .error .notPresent =>
          match opt.default with
          | some d => parseStep vt key d
          | none => .ok none
      | .error .notUnicode =>
          .error (.EnvLookupFailed (c.source.env_key opt.name) .notUnicode) := by
  unfold Conf.resolveEntry
  rw [srcGet_envSource, envGet_eq]
  cases env (c.source.env_key opt.name) with
  | ok v => simp [Option.orElse, parseStep]
  | error e =>
    cases e
    · cases opt.default <;> simp [Option.orElse, parseStep]
    · simp

/-- `Conf::get` over `EnvSource`, written as one case tree over the map
lookup, the downcast, the environment and the default. -/
theorem get_envSource_eq (c : Conf EnvSource) (env : Env) (vt : VType)
    (key : String) :
    c.get env vt key =
      match mapGet key c.options with
      | none => .error (.KeyNotFound key)
      | some opt =>
        if opt.valType = vt then
          match env (c.source.env_key opt.name) with
          | .ok v => parseStep vt key v
          | .error .notPresent =>
              match opt.default with
              | some d => parseStep vt key d
              | none => .ok none
          | .error .notUnicode =>
              .error (.EnvLookupFailed (c.source.env_key opt.name) .notUnicode)
        else .error (.ValParseFailed key "") := by
  unfold Conf.get
  cases mapGet key c.options with
  | none => rfl
  | some opt =>
    by_cases hv : opt.valType = vt <;> simp [hv, resolveEntry_envSource]

theorem get_envSource_ne_valNotFound (c : Conf EnvSource) (env : Env)
    (vt : VType) (key k' : String) :
    c.get env vt key ≠ .error (.ValNotFound k') := by
  rw [get_envSource_eq]
  cases mapGet key c.options with
  | none => simp
  | some opt =>
    by_cases hv : opt.valType = vt
    · simp only [hv, if_true]
      cases env (c.source.env_key opt.name) with
      | ok v => cases h : vt.parse v <;> simp [parseStep, h]
      | error e =>
        cases e
        · cases opt.default with
          | none => simp
          | some d => cases h : vt.parse d <;> simp [parseStep, h]
        · simp
    · simp [hv]

/-! ## Round-trip of rendering and parsing (auxiliary) -/

theorem charToDigit_digitToChar (d : Nat) (h : d < 10) :
    charToDigit (digitToChar d) = some d := by
  interval_cases d <;> rfl

theorem digitToChar_ne_sign (d : Nat) (h : d < 10) :
    digitToChar d ≠ '+' ∧ digitToChar d ≠ '-' := by
  interval_cases d <;> exact ⟨by decide, by decide⟩

theorem parseDigitsAux_append (l₁ l₂ : List Char) (acc : Nat) :
    parseDigitsAux (l₁ ++ l₂) acc =
      (parseDigitsAux l₁ acc).bind fun a => parseDigitsAux l₂ a := by
  induction l₁ generalizing acc with
  | nil => simp [parseDigitsAux]
  | cons c cs ih =>
    cases hc : charToDigit c <;> simp [parseDigitsAux, hc, ih]

theorem parseDigitsAux_natDigitsAux (fuel : Nat) :
    ∀ n acc, n < fuel →
      parseDigitsAux (natDigitsAux fuel n) acc =
        some (acc * 10 ^ (natDigitsAux fuel n).length + n) := by
  induction fuel with
  | zero => intro n acc h; omega
  | succ f ih =>
    intro n acc h
    by_cases h10 : n < 10
    · simp [natDigitsAux, h10, parseDigitsAux, charToDigit_digitToChar n h10]
    · have hd : n / 10 < f := by
        have h1 : n / 10 < n := Nat.div_lt_self (by omega) (by omega)
        omega
      have hm : n % 10 < 10 := Nat.mod_lt _ (by omega)
      rw [natDigitsAux, if_neg h10, parseDigitsAux_append, ih (n / 10) acc hd]
      rw [Option.some_bind]
      simp only [parseDigitsAux, charToDigit_digitToChar _ hm,
        List.length_append, List.length_cons, List.length_nil]
      have h2 : n / 10 * 10 + n % 10 = n := by omega
      congr 1
      calc (acc * 10 ^ (natDigitsAux f (n / 10)).length + n / 10) * 10 + n % 10
          = acc * (10 ^ (natDigitsAux f (n / 10)).length * 10) +
              (n / 10 * 10 + n % 10) := by ring
        _ = acc * 10 ^ ((natDigitsAux f (n / 10)).length + (0 + 1)) + n := by
            rw [h2, Nat.zero_add, pow_succ]

theorem natDigitsAux_head (fuel : Nat) :
    ∀ n, n < fuel →
      ∃ d rest, natDigitsAux fuel n = digitToChar d :: rest ∧ d < 10 := by
  induction fuel with
  | zero => intro n h; omega
  | succ f ih =>
    intro n h
    by_cases h10 : n < 10
    · exact ⟨n, [], by simp [natDigitsAux, h10], h10⟩
    · have hd : n / 10 < f := by
        have h1 : n / 10 < n := Nat.div_lt_self (by omega) (by omega)
        omega
      obtain ⟨d, rest, hrep, hdlt⟩ := ih (n / 10) hd
      exact ⟨d, rest ++ [digitToChar (n % 10)],
        by simp [natDigitsAux, h10, hrep], hdlt⟩

theorem parseDigits_natDigits (n : Nat) : parseDigits (natDigits n) = some n := by
  have h : n < n + 1 := Nat.lt_succ_self n
  obtain ⟨d, rest, hrep, _⟩ := natDigitsAux_head (n + 1) n h
  have hval := parseDigitsAux_natDigitsAux (n + 1) n 0 h
  cases hl : natDigits n with
  | nil =>
    rw [natDigits] at hl
    rw [hl] at hrep
    exact absurd hrep (List.noConfusion)
  | cons c cs =>
    show parseDigitsAux (c :: cs) 0 = some n
    rw [← hl]
    rw [natDigits] at hl ⊢
    rw [hval]
    simp

theorem parseSignDigits_natDigits (n : Nat) :
    parseSignDigits (natDigits n) = some (false, n) := by
  obtain ⟨d, rest, hrep, hd⟩ := natDigitsAux_head (n + 1) n (Nat.lt_succ_self n)
  have hl : natDigits n = digitToChar d :: rest := hrep
  rw [hl, parseSignDigits]
  rw [if_neg (digitToChar_ne_sign d hd).1, if_neg (digitToChar_ne_sign d hd).2]
  rw [← hl, parseDigits_natDigits]
  rfl

theorem parseUnsigned_renderNat (max n : Nat) (h : n ≤ max) :
    parseUnsigned max (renderNat n) = some n := by
  unfold parseUnsigned renderNat
  rw [show (String.mk (natDigits n)).data = natDigits n from rfl]
  rw [parseSignDigits_natDigits]
  simp [h]

theorem parseSigned_renderInt (bound : Nat) (i : Int)
    (h₁ : -(bound : Int) ≤ i) (h₂ : i ≤ (bound : Int) - 1) :
    parseSigned bound (renderInt i) = some i := by
  unfold renderInt
  by_cases hneg : i < 0
  · rw [if_pos hneg]
    unfold parseSigned
    rw [show (String.mk ('-' :: natDigits i.natAbs)).data =
        '-' :: natDigits i.natAbs from rfl]
    rw [parseSignDigits]
    rw [if_neg (by decide), if_pos rfl]
    rw [parseDigits_natDigits]
    have hb : i.natAbs ≤ bound := by omega
    simp only [Option.map, if_pos hb]
    congr 1
    omega
  · rw [if_neg hneg]
    unfold parseSigned renderNat
    rw [show (String.mk (natDigits i.natAbs)).data = natDigits i.natAbs from rfl]
    rw [parseSignDigits_natDigits]
    have hb : i.natAbs ≤ bound - 1 := by omega
    simp only [if_pos hb]
    congr 1
    omega

/-- Round-trip of `Display` rendering and `FromStr` parsing for the
embedded value types, on every value in the Rust type's range. -/
theorem parse_render_roundtrip (vt : VType) (x : vt.carrier)
    (h : vt.inRange x) : vt.parse (vt.render x) = some x := by
  cases vt with
  | vString => rfl
  | vU8 => exact parseUnsigned_renderNat 255 x h
  | vU16 => exact parseUnsigned_renderNat 65535 x h
  | vU32 => exact parseUnsigned_renderNat 4294967295 x h
  | vU64 => exact parseUnsigned_renderNat 18446744073709551615 x h
  | vI8 =>
    have h' : (-128 : Int) ≤ x ∧ (x : Int) ≤ 127 := h
    have h2 : @LE.le Int Int.instLEInt x 127 := h'.2
    exact parseSigned_renderInt 128 x (by omega) (by omega)
  | vI16 =>
    have h' : (-32768 : Int) ≤ x ∧ (x : Int) ≤ 32767 := h
    have h2 : @LE.le Int Int.instLEInt x 32767 := h'.2
    exact parseSigned_renderInt 32768 x (by omega) (by omega)
  | vI32 =>
    have h' : (-2147483648 : Int) ≤ x ∧ (x : Int) ≤ 2147483647 := h
    have h2 : @LE.le Int Int.instLEInt x 2147483647 := h'.2
    exact parseSigned_renderInt 2147483648 x (by omega) (by omega)
  | vI64 =>
    have h' : (-9223372036854775808 : Int) ≤ x ∧
        (x : Int) ≤ 9223372036854775807 := h
    have h2 : @LE.le Int Int.instLEInt x 9223372036854775807 := h'.2
    exact parseSigned_renderInt 9223372036854775808 x (by omega) (by omega)

/-! ## Claims -/

/-- C1: For every registry, every registered entry and every requested
value type matching the entry's type, `Conf::get` parses and returns the
source value whenever the source returns one (the source always wins, no
default is consulted), consults the entry's default only when the source
returns absence, and returns `Ok(None)` when neither a source value nor
a default exists. -/
theorem C1_source_wins_over_default {S : Type} [ConfSource S] (c : Conf S)
    (env : Env) (vt : VType) (key : String) (e : ConfEntry)
    (he : mapGet key c.options = some e) (ht : e.valType = vt) :
    (∀ s, ConfSource.srcGet c.source env e.name = .ok (some s) →
        c.get env vt key = parseStep vt key s) ∧
    (∀ d, ConfSource.srcGet c.source env e.name = .ok none →
        e.default = some d → c.get env vt key = parseStep vt key d) ∧
    (ConfSource.srcGet c.source env e.name = .ok none →
        e.default = none → c.get env vt key = .ok none) := by
  have hg : c.get env vt key = c.resolveEntry env vt key e := by
    simp only [Conf.get, he]
    rw [if_pos ht]
  refine ⟨fun s hs => ?_, fun d hs hd => ?_, fun hs hd => ?_⟩ <;>
    rw [hg] <;> unfold Conf.resolveEntry <;> rw [hs]
  · cases h : vt.parse s <;> simp [Option.orElse, parseStep, h]
  · cases h : vt.parse d <;> simp [Option.orElse, parseStep, hd, h]
  · simp [Option.orElse, hd]

/-- C1 witness: the registry `Conf::default().string("name", Some("world"))`
with `VCFG_NAME=xela` set resolves the source value, not the default. -/
theorem C1_witness :
    confName.get envName .vString "name" = .ok (some "xela") :=
  (C1_source_wins_over_default confName envName .vString "name"
      ((ConfEntry.mkNew .vString "name").with_default "world") rfl rfl).1 "xela" rfl

/-- C2: `EnvSource` key translation is exactly the wire contract: the
variable consulted is the uppercased namespace, an underscore, then the
uppercased key (`"vcfg"`/`"name"` give `VCFG_NAME`); the prefix is
uppercased once at construction, the key at lookup; and `EnvSource::get`
consults exactly that variable. -/
theorem C2_env_key_wire_contract :
    (∀ (src : EnvSource) (key : String),
        src.env_key key = src.pfx ++ "_" ++ asciiUpper key) ∧
    (∀ name : String, (EnvSource.mkNew name).pfx = asciiUpper name) ∧
    (∀ name key : String,
        (EnvSource.mkNew name).env_key key =
          asciiUpper name ++ "_" ++ asciiUpper key) ∧
    ((EnvSource.mkNew "vcfg").env_key "name" = "VCFG_NAME") ∧
    (∀ (src : EnvSource) (env env' : Env) (key : String),
        env (src.env_key key) = env' (src.env_key key) →
        src.envGet env key = src.envGet env' key) := by
  refine ⟨fun _ _ => rfl, fun _ => rfl, fun _ _ => rfl, rfl,
    fun src env env' key h => ?_⟩
  rw [envGet_eq, envGet_eq, h]

/-- C2 witness: two environments agreeing only on `VCFG_NAME` give the
same `EnvSource::get` result for key `"name"` under namespace `"vcfg"`. -/
theorem C2_witness :
    (EnvSource.mkNew "vcfg").envGet envName "name" =
      (EnvSource.mkNew "vcfg").envGet envNameOnlyAgree "name" :=
  C2_env_key_wire_contract.2.2.2.2 (EnvSource.mkNew "vcfg") envName
    envNameOnlyAgree "name" rfl

/-- C3: for every key never registered in the option map, `Conf::get`
and every typed wrapper return `KeyNotFound{key}`, regardless of the
source or environment contents. -/
theorem C3_unregistered_key_not_found {S : Type} [ConfSource S] (c : Conf S)
    (env : Env) (vt : VType) (key : String)
    (h : mapGet key c.options = none) :
    c.get env vt key = .error (.KeyNotFound key) ∧
    c.get_string env key = .error (.KeyNotFound key) ∧
    c.get_byte env key = .error (.KeyNotFound key) ∧
    c.get_int env key = .error (.KeyNotFound key) ∧
    c.get_uint env key = .error (.KeyNotFound key) := by
  unfold Conf.get_string Conf.get_byte Conf.get_int Conf.get_uint
  simp [Conf.get, h]

/-- C3 witness: no entry named `"testy"` is registered, so
`get_string("testy")` is `KeyNotFound{key: "testy"}` even though the
environment has values. -/
theorem C3_witness :
    confName.get_string envName "testy" = .error (.KeyNotFound "testy") :=
  (C3_unregistered_key_not_found confName envName .vString "testy" rfl).2.1

/-- C4: on an `EnvSource`-backed registry, `Conf::require` returns
`ValNotFound{key}` exactly when `Conf::get` would return `Ok(None)`;
when `get` returns `Ok(Some(v))`, `require` returns `Ok(v)` unwrapped;
and every error from `get` passes through `require` unchanged. -/
theorem C4_require_vs_get (c : Conf EnvSource) (env : Env) (vt : VType)
    (key : String) :
    (c.require env vt key = .error (.ValNotFound key) ↔
        c.get env vt key = .ok none) ∧
    (∀ v, c.get env vt key = .ok (some v) → c.require env vt key = .ok v) ∧
    (∀ er, c.get env vt key = .error er → c.require env vt key = .error er) := by
  refine ⟨⟨fun h => ?_, fun h => ?_⟩, fun v h => ?_, fun er h => ?_⟩
  · cases hg : c.get env vt key with
    | ok o =>
      cases o with
      | none => rfl
      | some v => simp [Conf.require, exceptTranspose, hg] at h
    | error er =>
      simp [Conf.require, exceptTranspose, hg] at h
      exact absurd (h ▸ hg) (get_envSource_ne_valNotFound c env vt key key)
  · simp [Conf.require, exceptTranspose, h]
  · simp [Conf.require, exceptTranspose, h]
  · simp [Conf.require, exceptTranspose, h]

/-- C4 witness: `"name"` resolves to its default `"world"`, and
`require` unwraps it. -/
theorem C4_witness :
    confName.require envEmpty .vString "name" = .ok "world" :=
  (C4_require_vs_get confName envEmpty .vString "name").2.1 "world" rfl

/-- C5: on an `EnvSource`-backed registry, `Conf::get` returns
`ValParseFailed{key, val}` in exactly two cases: the stored entry's type
differs from the requested one (with `val = ""`), or the raw string
resolved from the environment variable or from the default fails to
parse as the requested type (with `val` that raw string). Further,
`with_default` stores the given string verbatim (it cannot fail and
changes nothing else), so an invalid default surfaces only as this error
on access. -/
theorem C5_val_parse_failed_cases (c : Conf EnvSource) (env : Env)
    (vt : VType) (key k v : String) :
    (c.get env vt key = .error (.ValParseFailed k v) ↔
      k = key ∧ ∃ e, mapGet key c.options = some e ∧
        ((e.valType ≠ vt ∧ v = "") ∨
          (e.valType = vt ∧ vt.parse v = none ∧
            (env (c.source.env_key e.name) = .ok v ∨
              (env (c.source.env_key e.name) = .error .notPresent ∧
                e.default = some v))))) ∧
    (∀ (e : ConfEntry) (d : String),
        (e.with_default d).default = some d ∧
        (e.with_default d).name = e.name ∧
        (e.with_default d).valType = e.valType) := by
  refine ⟨?_, fun e d => ⟨rfl, rfl, rfl⟩⟩
  rw [get_envSource_eq]
  cases hm : mapGet key c.options with
  | none => simp
  | some e =>
    simp only [Option.some.injEq, exists_eq_left']
    by_cases hv : e.valType = vt
    · rw [if_pos hv]
      cases henv : env (c.source.env_key e.name) with
      | ok w =>
        cases hp : vt.parse w <;> simp [parseStep, hp, hv] <;> aesop
      | error er =>
        cases er
        · cases hd : e.default with
          | none => simp [hv]
          | some d =>
            cases hp : vt.parse d <;> simp [parseStep, hp, hv] <;> aesop
        · simp [hv]
    · rw [if_neg hv]
      simp [hv]
      aesop

/-- C5 witness: the invalid default `"1e3"` of a `u8` entry is stored
verbatim and surfaces as `ValParseFailed{key: "count", val: "1e3"}` on
access. -/
theorem C5_witness :
    confBadDefault.get envEmpty .vU8 "count" =
      .error (.ValParseFailed "count" "1e3") :=
  (C5_val_parse_failed_cases confBadDefault envEmpty .vU8 "count" "count"
      "1e3").1.mpr
    ⟨rfl, ⟨(ConfEntry.mkNew .vU8 "count").with_default "1e3", rfl,
      Or.inr ⟨rfl, rfl, Or.inr ⟨rfl, rfl⟩⟩⟩⟩

/-- C6: `EnvSource::get` returns `Ok(None)` when the translated variable
is not present (absence is never an error), `Ok(Some(s))` with the exact
raw string when the variable reads successfully, and an error only for
an abnormal lookup failure (a present but invalidly encoded variable),
wrapping the underlying cause. -/
theorem C6_envsource_get_contract (src : EnvSource) (env : Env) (key : String) :
    (env (src.env_key key) = .error .notPresent →
        src.envGet env key = .ok none) ∧
    (∀ s, env (src.env_key key) = .ok s →
        src.envGet env key = .ok (some s)) ∧
    (∀ e, e ≠ VarError.notPresent → env (src.env_key key) = .error e →
        src.envGet env key = .error (.EnvLookupFailed (src.env_key key) e)) := by
  refine ⟨fun h => by rw [envGet_eq, h], fun s h => by rw [envGet_eq, h],
    fun e he h => ?_⟩
  cases e
  · exact absurd rfl he
  · rw [envGet_eq, h]

/-- C6 witness: with `VCFG_NAME=xela` set, `EnvSource::get` under
namespace `"vcfg"` returns exactly that raw string. -/
theorem C6_witness :
    (EnvSource.mkNew "vcfg").envGet envName "name" = .ok (some "xela") :=
  (C6_envsource_get_contract (EnvSource.mkNew "vcfg") envName "name").2.1
    "xela" rfl

/-- C7: inserting a second entry with the same name via `Conf::entry`
silently replaces the first: lookup sees only the last-inserted entry,
the registry's key list is unchanged by the replacement, and every other
key is unaffected. -/
theorem C7_last_write_wins {S : Type} (c : Conf S) (e₁ e₂ : ConfEntry)
    (h : e₁.name = e₂.name) :
    mapGet e₂.name ((c.entry e₁).entry e₂).options = some e₂ ∧
    ((c.entry e₁).entry e₂).options.map Prod.fst =
      (c.entry e₁).options.map Prod.fst ∧
    (∀ k, k ≠ e₂.name →
        mapGet k ((c.entry e₁).entry e₂).options =
          mapGet k (c.entry e₁).options) := by
  refine ⟨mapGet_mapInsert_self _ _ _, ?_, fun k hk => mapGet_mapInsert_ne _ _ _ _ hk⟩
  show (mapInsert e₂.name e₂ (mapInsert e₁.name e₁ c.options)).map Prod.fst =
    (mapInsert e₁.name e₁ c.options).map Prod.fst
  rw [h]
  exact keys_mapInsert_mapInsert _ _ _ _

/-- C7 witness: registering `"x"` as a string entry and then as a `u8`
entry leaves only the `u8` entry under `"x"`. -/
theorem C7_witness :
    mapGet "x" ((Conf.mkDefault.entry
        ((ConfEntry.mkNew .vString "x").with_default "a")).entry
        (ConfEntry.mkNew .vU8 "x")).options = some (ConfEntry.mkNew .vU8 "x") :=
  (C7_last_write_wins Conf.mkDefault
      ((ConfEntry.mkNew .vString "x").with_default "a")
      (ConfEntry.mkNew .vU8 "x") rfl).1

/-- C9: reads are deterministic: two `Conf::get` calls with the same key
and value type on the same registry with the source (environment) state
unchanged return identical results. The registry itself cannot change:
the embedding of `Conf::get` is a pure function of the registry and the
environment (the Rust method takes `&self` and contains no interior
mutability), so the name, source and option map are untouched by reads. -/
theorem C9_get_read_deterministic {S : Type} [ConfSource S] (c : Conf S)
    (env : Env) (vt : VType) (key : String)
    (r₁ r₂ : Except ConfError (Option vt.carrier))
    (h₁ : r₁ = c.get env vt key) (h₂ : r₂ = c.get env vt key) : r₁ = r₂ :=
  h₁.trans h₂.symm

/-- C9 witness: two identical reads of `"name"` agree. -/
theorem C9_witness :
    confName.get envName .vString "name" = confName.get envName .vString "name" :=
  C9_get_read_deterministic confName envName .vString "name" _ _ rfl rfl

/-- C10 counterexample: in `Conf::default().byte("count", None)` the key
`"count"` is registered with value type `u8` and requested at that same
type, yet with `VCFG_COUNT` set to the empty string `Conf::get` returns
`ValParseFailed{key: "count", val: ""}` — the very error value the claim
calls unreachable under that precondition (here it comes from the parse
step, not the downcast). -/
theorem C10_counterexample :
    mapGet "count" confCount.options =
      some { name := "count", valType := .vU8, default := none } ∧
    confCount.get envCountEmpty .vU8 "count" =
      .error (.ValParseFailed "count" "") :=
  ⟨rfl, rfl⟩

/-- C10 (amended): when the requested type equals the registered type,
the checked downcast always succeeds and `Conf::get` proceeds directly
to the source/default/parse pipeline — the downcast-mismatch branch is
never taken. (The error value `ValParseFailed{key, val: ""}` itself
remains reachable through the parse step when the resolved raw string is
empty.) -/
theorem C10_downcast_never_fails {S : Type} [ConfSource S] (c : Conf S)
    (env : Env) (vt : VType) (key : String) (e : ConfEntry)
    (he : mapGet key c.options = some e) (ht : e.valType = vt) :
    c.get env vt key = c.resolveEntry env vt key e := by
  simp only [Conf.get, he]
  rw [if_pos ht]

/-- C10 witness: the amended statement at the counterexample's registry. -/
theorem C10_witness :
    confCount.get envCountEmpty .vU8 "count" =
      confCount.resolveEntry envCountEmpty .vU8 "count"
        { name := "count", valType := .vU8, default := none } :=
  C10_downcast_never_fails confCount envCountEmpty .vU8 "count" _ rfl rfl

end Voidconf
